import Mathlib

/-!
A verification development for the Dhall type checker of this repository
(src/dhall/src/typecheck.rs).  The checker's term model and its collaborators
`shift`, `subst`, `normalize` and `Context` live in the `dhall_core` crate,
which is not part of the sources at hand; those are modelled from the
specification (spec.md sections 3, 4.1, 4.2 and 4.4).  Everything in
`typecheck.rs` itself (axiom, rule, match_vars, prop_equal, op2_type,
type_with, type_of, the error taxonomy) is translated directly from the code.

Rust `panic!` sites (the unchecked `unwrap` in the ListLit/OptionalLit
branches, the `Unimplemented typecheck case` fallthrough, and the
overflow-checked `usize` subtraction in `match_vars`) are modelled as an
explicit `panicked` outcome (`none` for `match_vars`).  `type_with` carries a
fuel argument because its recursion also type-checks inferred types, which is
not structurally decreasing; `noFuel` marks fuel exhaustion and is an
artefact of the embedding, not a behaviour of the code.
-/

namespace DhallTC

/-- Source: `core::Const` with variants `Type` and `Kind`. -/
inductive DhallConst where
  | type
  | kind
deriving DecidableEq

/-- Source: `core::Builtin`, the fixed builtin enumeration. -/
inductive DBuiltin where
  | bool
  | natural
  | integer
  | double
  | text
  | list
  | optional
  | naturalFold
  | naturalBuild
  | naturalIsZero
  | naturalEven
  | naturalOdd
  | listBuild
  | listFold
  | listLength
  | listHead
  | listLast
  | listIndexed
  | listReverse
  | optionalFold
deriving DecidableEq

/-- Source: `dhall_core::BinOp`, restricted to the operators the checker
handles (spec section 3, Controls). -/
inductive DBinOp where
  | boolAnd
  | boolOr
  | boolEQ
  | boolNE
  | naturalPlus
  | naturalTimes
  | textAppend
deriving DecidableEq

/-- Source: `dhall_core::V`: a label together with a de Bruijn disambiguation
index (`V(Label, usize)`); `Label` is instantiated with `String`. -/
structure V where
  name : String
  idx : Nat
deriving DecidableEq

/-- Modelled from the spec (section 3): the expression tree of `dhall_core`.
Label maps (`Record`, `RecordLit`, `Union`, `UnionLit`) are `BTreeMap`s in the
source, i.e. association lists kept in canonical sorted key order (spec
section 9, "Dynamic label map ordering"); they are modelled as association
lists whose order is the map's iteration order.  The `DoubleLit` payload
(an `f64`) and the `Note` annotation payload are never inspected by the
checker and are dropped; `Embed(X)` carries the empty type `X`, is
uninhabited, and therefore has no constructor here. -/
inductive Expr where
  | const (c : DhallConst)
  | var (v : V)
  | lam (x : String) (tA : Expr) (b : Expr)
  | pi (x : String) (tA : Expr) (tB : Expr)
  | app (f : Expr) (a : Expr)
  | letE (x : String) (mt : Option Expr) (r : Expr) (b : Expr)
  | annot (x : Expr) (t : Expr)
  | boolLit (b : Bool)
  | naturalLit (n : Nat)
  | integerLit (n : Int)
  | doubleLit
  | textLit (s : String)
  | boolIf (p : Expr) (y : Expr) (z : Expr)
  | binOp (op : DBinOp) (l : Expr) (r : Expr)
  | listLit (t : Option Expr) (xs : List Expr)
  | optionalLit (t : Option Expr) (xs : List Expr)
  | record (kts : List (String × Expr))
  | recordLit (kvs : List (String × Expr))
  | union (kts : List (String × Expr))
  | unionLit (k : String) (v : Expr) (kts : List (String × Expr))
  | combine (l : Expr) (r : Expr)
  | merge (h : Expr) (u : Expr) (t : Expr)
  | field (r : Expr) (x : String)
  | builtin (b : DBuiltin)
  | note (e : Expr)

/-- The checker's context: an ordered stack of `(label, type)` bindings
(spec sections 3 and 4.4), nearest binding first. -/
abbrev Ctx := List (String × Expr)

/-- Source: `TypeMessage` in typecheck.rs (the sealed error taxonomy). -/
inductive TypeMessage where
  | unboundVariable
  | invalidInputType (t : Expr)
  | invalidOutputType (t : Expr)
  | notAFunction (f t : Expr)
  | typeMismatch (f tA a tA2 : Expr)
  | annotMismatch (x t t2 : Expr)
  | untyped
  | invalidListElement (i : Nat) (t x t2 : Expr)
  | invalidListType (t : Expr)
  | invalidOptionalElement (t x t2 : Expr)
  | invalidOptionalLiteral (n : Nat)
  | invalidOptionalType (t : Expr)
  | invalidPredicate (x t : Expr)
  | ifBranchMismatch (y z ty tz : Expr)
  | ifBranchMustBeTerm (first : Bool) (x t tt : Expr)
  | invalidField (k : String) (v : Expr)
  | invalidFieldType (k : String) (t : Expr)
  | invalidAlternative (k : String) (v : Expr)
  | invalidAlternativeType (k : String) (t : Expr)
  | duplicateAlternative (k : String)
  | mustCombineARecord (e t : Expr)
  | fieldCollision (k : String)
  | mustMergeARecord (e t : Expr)
  | mustMergeUnion (e t : Expr)
  | unusedHandler (ks : List String)
  | missingHandler (ks : List String)
  | handlerInputTypeMismatch (k : String) (t t2 : Expr)
  | handlerOutputTypeMismatch (k : String) (t t2 : Expr)
  | handlerNotAFunction (k : String) (t : Expr)
  | notARecord (k : String) (e t : Expr)
  | missingField (k : String) (t : Expr)
  | cantAnd (e t : Expr)
  | cantOr (e t : Expr)
  | cantEQ (e t : Expr)
  | cantNE (e t : Expr)
  | cantTextAppend (e t : Expr)
  | cantAdd (e t : Expr)
  | cantMultiply (e t : Expr)
  | noDependentLet (t1 t2 : Expr)
  | noDependentTypes (t1 t2 : Expr)

/-- Source: `TypeError` in typecheck.rs: the context at the failure point,
the offending sub-term, and the message. -/
structure TypeError where
  context : Ctx
  current : Expr
  typeMessage : TypeMessage

/-- Outcome of running the checker: `Result<Expr, TypeError>` extended with
`panicked` for Rust panics and `noFuel` for fuel exhaustion (an embedding
artefact only). -/
inductive TCResult where
  | ok (t : Expr)
  | err (e : TypeError)
  | panicked
  | noFuel

/-- Propagation of non-`ok` outcomes, mirroring the `?` operator. -/
def tbind (r : TCResult) (f : Expr → TCResult) : TCResult :=
  match r with
  | .ok t => f t
  | .err e => .err e
  | .panicked => .panicked
  | .noFuel => .noFuel

/-- Modelled from the spec (section 4.4): `Context::lookup(name, n)` returns
the `n`-th entry (0-indexed, nearest first) of `name`'s stack. -/
def lookupCtx : Ctx → String → Nat → Option Expr
  | [], _, _ => none
  | (y, t) :: rest, x, n =>
    if y = x then
      match n with
      | 0 => some t
      | m + 1 => lookupCtx rest x m
    else lookupCtx rest x n

/-- Modelled from the spec (section 4.4): `Context::map`, applying a function
to every stored type.  In the source, insertion is a plain push and the
callers of `insert` perform the `+1` shift themselves through `map` (see the
`Lam` and `Pi` branches of `type_with`), which together realise the
"shift-aware insertion" of spec section 2. -/
def ctxMap (f : Expr → Expr) (ctx : Ctx) : Ctx :=
  ctx.map fun p => (p.1, f p.2)

mutual
/-- Modelled from the spec (section 4.1): `shift(d, v, e)` adds `d` to every
free variable `V(x, k)` with `x = v.name` and `k ≥ v.index`; entering a
binder of `v.name` increments `v.index`.  `dhall_core::shift` is not among
the sources; the caller guarantees no underflow, modelled by `Int.toNat`. -/
def shift (d : Int) (v : V) : Expr → Expr
  | .const c => .const c
  | .var w =>
    .var (if w.name = v.name ∧ v.idx ≤ w.idx then ⟨w.name, (Int.ofNat w.idx + d).toNat⟩ else w)
  | .lam x tA b =>
    .lam x (shift d v tA) (shift d ⟨v.name, if x = v.name then v.idx + 1 else v.idx⟩ b)
  | .pi x tA tB =>
    .pi x (shift d v tA) (shift d ⟨v.name, if x = v.name then v.idx + 1 else v.idx⟩ tB)
  | .app f a => .app (shift d v f) (shift d v a)
  | .letE x mt r b =>
    .letE x (shiftO d v mt) (shift d v r)
      (shift d ⟨v.name, if x = v.name then v.idx + 1 else v.idx⟩ b)
  | .annot x t => .annot (shift d v x) (shift d v t)
  | .boolLit b => .boolLit b
  | .naturalLit n => .naturalLit n
  | .integerLit n => .integerLit n
  | .doubleLit => .doubleLit
  | .textLit s => .textLit s
  | .boolIf p y z => .boolIf (shift d v p) (shift d v y) (shift d v z)
  | .binOp op l r => .binOp op (shift d v l) (shift d v r)
  | .listLit t xs => .listLit (shiftO d v t) (shiftEL d v xs)
  | .optionalLit t xs => .optionalLit (shiftO d v t) (shiftEL d v xs)
  | .record kts => .record (shiftL d v kts)
  | .recordLit kvs => .recordLit (shiftL d v kvs)
  | .union kts => .union (shiftL d v kts)
  | .unionLit k val kts => .unionLit k (shift d v val) (shiftL d v kts)
  | .combine l r => .combine (shift d v l) (shift d v r)
  | .merge h u t => .merge (shift d v h) (shift d v u) (shift d v t)
  | .field r x => .field (shift d v r) x
  | .builtin b => .builtin b
  | .note e => .note (shift d v e)

def shiftO (d : Int) (v : V) : Option Expr → Option Expr
  | none => none
  | some e => some (shift d v e)

def shiftEL (d : Int) (v : V) : List Expr → List Expr
  | [] => []
  | e :: rest => shift d v e :: shiftEL d v rest

def shiftL (d : Int) (v : V) : List (String × Expr) → List (String × Expr)
  | [] => []
  | (k, e) :: rest => (k, shift d v e) :: shiftL d v rest
end

mutual
/-- Modelled from the spec (section 4.1): `subst(v, repl, e)` replaces every
free occurrence of `V(v.name, v.index)` by `repl`; entering a binder that
binds `v.name` increments `v.index` by 1 and shifts the replacement by `+1`
on `v.name`.  `dhall_core::subst` is not among the sources. -/
def subst : V → Expr → Expr → Expr
  | _, _, .const c => .const c
  | v, repl, .var w => if w = v then repl else .var w
  | v, repl, .lam x tA b =>
    .lam x (subst v repl tA)
      (if x = v.name then subst ⟨v.name, v.idx + 1⟩ (shift 1 ⟨v.name, 0⟩ repl) b
       else subst v repl b)
  | v, repl, .pi x tA tB =>
    .pi x (subst v repl tA)
      (if x = v.name then subst ⟨v.name, v.idx + 1⟩ (shift 1 ⟨v.name, 0⟩ repl) tB
       else subst v repl tB)
  | v, repl, .app f a => .app (subst v repl f) (subst v repl a)
  | v, repl, .letE x mt r b =>
    .letE x (substO v repl mt) (subst v repl r)
      (if x = v.name then subst ⟨v.name, v.idx + 1⟩ (shift 1 ⟨v.name, 0⟩ repl) b
       else subst v repl b)
  | v, repl, .annot x t => .annot (subst v repl x) (subst v repl t)
  | _, _, .boolLit b => .boolLit b
  | _, _, .naturalLit n => .naturalLit n
  | _, _, .integerLit n => .integerLit n
  | _, _, .doubleLit => .doubleLit
  | _, _, .textLit s => .textLit s
  | v, repl, .boolIf p y z => .boolIf (subst v repl p) (subst v repl y) (subst v repl z)
  | v, repl, .binOp op l r => .binOp op (subst v repl l) (subst v repl r)
  | v, repl, .listLit t xs => .listLit (substO v repl t) (substEL v repl xs)
  | v, repl, .optionalLit t xs => .optionalLit (substO v repl t) (substEL v repl xs)
  | v, repl, .record kts => .record (substL v repl kts)
  | v, repl, .recordLit kvs => .recordLit (substL v repl kvs)
  | v, repl, .union kts => .union (substL v repl kts)
  | v, repl, .unionLit k val kts => .unionLit k (subst v repl val) (substL v repl kts)
  | v, repl, .combine l r => .combine (subst v repl l) (subst v repl r)
  | v, repl, .merge h u t => .merge (subst v repl h) (subst v repl u) (subst v repl t)
  | v, repl, .field r x => .field (subst v repl r) x
  | _, _, .builtin b => .builtin b
  | v, repl, .note e => .note (subst v repl e)
  termination_by structural _v _repl e => e

def substO : V → Expr → Option Expr → Option Expr
  | _, _, none => none
  | v, repl, some e => some (subst v repl e)
  termination_by structural _v _repl o => o

def substEL : V → Expr → List Expr → List Expr
  | _, _, [] => []
  | v, repl, e :: rest => subst v repl e :: substEL v repl rest
  termination_by structural _v _repl l => l

def substL : V → Expr → List (String × Expr) → List (String × Expr)
  | _, _, [] => []
  | v, repl, (k, e) :: rest => (k, subst v repl e) :: substL v repl rest
  termination_by structural _v _repl l => l
end

/-- Modelled from the spec (section 4.2): the normalizer is an external
collaborator that "reduces `e` to beta-normal form" and is otherwise a black
box (`crate::normalize` is not among the sources).  Beta-redexes, `let`,
`Annot` and `Note` are reduced with the contraction of spec section 4.1;
builtin delta rules are not modelled.  The fuel makes the recursion
structural; for the closed instances used below the fuel is always ample. -/
def normN : Nat → Expr → Expr
  | 0, e => e
  | n + 1, e =>
    match e with
    | .app f a =>
      match normN n f with
      | .lam x _tA b =>
        normN n (shift (-1) ⟨x, 0⟩ (subst ⟨x, 0⟩ (shift 1 ⟨x, 0⟩ a) b))
      | fn => .app fn (normN n a)
    | .lam x tA b => .lam x (normN n tA) (normN n b)
    | .pi x tA tB => .pi x (normN n tA) (normN n tB)
    | .letE x _mt r b =>
      normN n (shift (-1) ⟨x, 0⟩ (subst ⟨x, 0⟩ (shift 1 ⟨x, 0⟩ r) b))
    | .annot x _t => normN n x
    | .note x => normN n x
    | .boolIf p y z => .boolIf (normN n p) (normN n y) (normN n z)
    | .binOp op l r => .binOp op (normN n l) (normN n r)
    | .listLit t xs => .listLit (t.map (normN n)) (xs.map (normN n))
    | .optionalLit t xs => .optionalLit (t.map (normN n)) (xs.map (normN n))
    | .record kts => .record (kts.map fun kt => (kt.1, normN n kt.2))
    | .recordLit kvs => .recordLit (kvs.map fun kt => (kt.1, normN n kt.2))
    | .union kts => .union (kts.map fun kt => (kt.1, normN n kt.2))
    | .unionLit k val kts => .unionLit k (normN n val) (kts.map fun kt => (kt.1, normN n kt.2))
    | .combine l r => .combine (normN n l) (normN n r)
    | .merge h u t => .merge (normN n h) (normN n u) (normN n t)
    | .field r x => .field (normN n r) x
    | other => other

/-- Source: `match_vars` in typecheck.rs.  The recursion walks the renaming
stack outward; each frame decrements the matching side's counter via a `usize`
subtraction `nL - 1`.  That subtraction is overflow-checked: when the counter
is already 0 (and the frame did not satisfy the second match arm) the Rust
code panics, modelled by `none`. -/
def match_vars : V → V → List (String × String) → Option Bool
  | vl, vr, [] => some (decide (vl.name = vr.name ∧ vl.idx = vr.idx))
  | vl, vr, (xL2, xR2) :: xs =>
    if vl.idx = 0 ∧ vr.idx = 0 ∧ vl.name = xL2 ∧ vr.name = xR2 then some true
    else if vl.name = xL2 ∧ vl.idx = 0 then none
    else if vr.name = xR2 ∧ vr.idx = 0 then none
    else
      match_vars ⟨vl.name, if vl.name = xL2 then vl.idx - 1 else vl.idx⟩
        ⟨vr.name, if vr.name = xR2 then vr.idx - 1 else vr.idx⟩ xs

mutual
/-- Source: the inner `go` of `prop_equal` in typecheck.rs: structural
comparison under a renaming stack of frames, one pushed per simultaneous
`Pi`.  The stack is a `Vec` pushed at the back (`ctx.push(..)`, line 73)
while `match_vars` consumes it from the front (`split_first`), so the walk
examines the first-pushed — outermost — frame first; the frame is therefore
appended here, not consed.  (The commented-out Haskell `(xL, xR):ctx` conses
at the front instead; the port inverted the order.)  Record and union types
compare as ordered key/value sequences after a length check.  A `match_vars`
panic propagates as `none`. -/
def propEqGo (ctx : List (String × String)) : Expr → Expr → Option Bool
  | .const a, .const b => some (decide (a = b))
  | .var vl, .var vr => match_vars vl vr ctx
  | .pi xL tL bL, .pi xR tR bR =>
    match propEqGo ctx tL tR with
    | some true => propEqGo (ctx ++ [(xL, xR)]) bL bR
    | some false => some false
    | none => none
  | .app fL aL, .app fR aR =>
    match propEqGo ctx fL fR with
    | some true => propEqGo ctx aL aR
    | some false => some false
    | none => none
  | .builtin a, .builtin b => some (decide (a = b))
  | .record ktsL, .record ktsR =>
    if ktsL.length ≠ ktsR.length then some false else propEqGoList ctx ktsL ktsR
  | .union ktsL, .union ktsR =>
    if ktsL.length ≠ ktsR.length then some false else propEqGoList ctx ktsL ktsR
  | _, _ => some false

def propEqGoList (ctx : List (String × String)) :
    List (String × Expr) → List (String × Expr) → Option Bool
  | [], _ => some true
  | _, [] => some true
  | (kL, tL) :: ls, (kR, tR) :: rs =>
    if kL ≠ kR then some false
    else
      match propEqGo ctx tL tR with
      | some true => propEqGoList ctx ls rs
      | some false => some false
      | none => none
end

/-- Source: `prop_equal` in typecheck.rs: normalize both operands, then run
the structural comparison with an empty renaming stack.  The fuel feeds the
modelled normalizer. -/
def prop_equal (fuel : Nat) (l r : Expr) : Option Bool :=
  propEqGo [] (normN fuel l) (normN fuel r)

/-- Source: `fn axiom` in typecheck.rs (renamed: Lean reserves the word):
`axiom(Type) = Kind`, and `axiom(Kind)` fails with `Untyped`, carrying a
fresh empty context and `Const(Kind)` as the offending term. -/
def axm : DhallConst → Except TypeError DhallConst
  | .type => .ok .kind
  | .kind => .error ⟨[], .const .kind, .untyped⟩

/-- Source: `fn rule` in typecheck.rs; `none` models `Err(())`. -/
def rule : DhallConst → DhallConst → Option DhallConst
  | .type, .kind => none
  | .kind, .kind => some .kind
  | .type, .type => some .type
  | .kind, .type => some .type

/-- Source: `fn op2_type` in typecheck.rs, parameterized by the recursive
checker and the normalizer. -/
def op2_type (tw : Ctx → Expr → TCResult) (nrm : Expr → Expr) (ctx : Ctx) (e : Expr)
    (t : DBuiltin) (ef : Expr → Expr → TypeMessage) (l r : Expr) : TCResult :=
  tbind (tw ctx l) fun tl0 =>
    match nrm tl0 with
    | .builtin lt =>
      if lt = t then
        tbind (tw ctx r) fun tr0 =>
          match nrm tr0 with
          | .builtin rt =>
            if rt = t then .ok (.builtin t)
            else .err ⟨ctx, e, ef r (.builtin rt)⟩
          | tr => .err ⟨ctx, e, ef r tr⟩
      else .err ⟨ctx, e, ef l (.builtin lt)⟩
    | tl => .err ⟨ctx, e, ef l tl⟩

/-- The enumeration of list elements (`xs.iter().enumerate()`), starting at a
given index: the index is 0 for an annotated literal and 1 after the first
element has been consumed to infer the element type. -/
def enumFrom (i : Nat) : List Expr → List (Nat × Expr)
  | [] => []
  | x :: xs => (i, x) :: enumFrom (i + 1) xs

/-- Source: the `ListLit` branch of `type_with` after the element type `t`
has been resolved: check `typeof(t)` normalizes to `Const Type`
(`InvalidListType` otherwise), check every remaining enumerated element's
type `prop_equal` to `t` (`InvalidListElement` otherwise), and return
`App(List, t)`. -/
def listLitTail (tw : Ctx → Expr → TCResult) (nrm : Expr → Expr)
    (pe : Expr → Expr → Option Bool) (ctx : Ctx) (e : Expr) (t : Expr)
    (elems : List (Nat × Expr)) : TCResult :=
  tbind (tw ctx t) fun s0 =>
    match nrm s0 with
    | .const .type =>
      elems.foldl
        (fun acc ix =>
          match acc with
          | .ok cur =>
            match tw ctx ix.2 with
            | .ok t2 =>
              match pe t t2 with
              | some true => .ok cur
              | some false => .err ⟨ctx, e, .invalidListElement ix.1 (nrm t) ix.2 (nrm t2)⟩
              | none => .panicked
            | r => r
          | bad => bad)
        (.ok (.app (.builtin .list) t))
    | _ => .err ⟨ctx, e, .invalidListType t⟩

/-- Source: the `OptionalLit` branch of `type_with` after the element type
has been resolved: the `Const Type` check (`InvalidOptionalType` otherwise),
then the length check `2 <= n` on the original sequence length
(`InvalidOptionalLiteral(n)`), then the element checks on the remaining
iterator, returning `App(Optional, t)`. -/
def optionalLitTail (tw : Ctx → Expr → TCResult) (nrm : Expr → Expr)
    (pe : Expr → Expr → Option Bool) (ctx : Ctx) (e : Expr) (t : Expr)
    (norig : Nat) (elems : List Expr) : TCResult :=
  tbind (tw ctx t) fun s0 =>
    match nrm s0 with
    | .const .type =>
      if 2 ≤ norig then .err ⟨ctx, e, .invalidOptionalLiteral norig⟩
      else
        elems.foldl
          (fun acc x =>
            match acc with
            | .ok cur =>
              match tw ctx x with
              | .ok t2 =>
                match pe t t2 with
                | some true => .ok cur
                | some false => .err ⟨ctx, e, .invalidOptionalElement (nrm t) x (nrm t2)⟩
                | none => .panicked
              | r => r
            | bad => bad)
          (.ok (.app (.builtin .optional) t))
    | _ => .err ⟨ctx, e, .invalidOptionalType t⟩

/-- Source: the `RecordLit` branch of `type_with`: each value's type must
itself live at `Type` (`InvalidField` otherwise); returns the record of the
inferred field types, in field order. -/
def recordLitCheck (tw : Ctx → Expr → TCResult) (nrm : Expr → Expr) (ctx : Ctx)
    (e : Expr) : List (String × Expr) → TCResult
  | [] => .ok (.record [])
  | (k, v) :: rest =>
    tbind (tw ctx v) fun t =>
      tbind (tw ctx t) fun s0 =>
        match nrm s0 with
        | .const .type =>
          match recordLitCheck tw nrm ctx e rest with
          | .ok (.record kts) => .ok (.record ((k, t) :: kts))
          | r => r
        | _ => .err ⟨ctx, e, .invalidField k v⟩

/-- `BTreeMap::get` on an association list in map iteration order. -/
def assocGet (kts : List (String × Expr)) (x : String) : Option Expr :=
  match kts with
  | [] => none
  | (k, t) :: rest => if k = x then some t else assocGet rest x

/-- The context extension used by the `Lam` and `Pi` branches:
`ctx.insert(x, tA).map(|e| shift(1, &V(x, 0), e))`. -/
def insertShifted (x : String) (tA : Expr) (ctx : Ctx) : Ctx :=
  ctxMap (shift 1 ⟨x, 0⟩) ((x, tA) :: ctx)

/-- A variable reference written as a bare string in the source's builtin
schemas (`dhall_core`'s conversion of `&str` into `Var(V(name, 0))`). -/
def vr (s : String) : Expr := .var ⟨s, 0⟩

/-- Source: `pub fn type_with` in typecheck.rs, the PTS engine.  Translated
branch by branch; the first argument is fuel (see the module comment).  The
`Union`, `UnionLit`, `Combine`, `Merge` and `Note` match arms are commented
out in the source, so those nodes reach the
`_ => panic!("Unimplemented typecheck case")` fallthrough, modelled by
`panicked`; so do the unchecked `unwrap` calls of the unannotated empty
`ListLit` and `OptionalLit` branches. -/
def type_with : Nat → Ctx → Expr → TCResult
  | 0, _, _ => .noFuel
  | n + 1, ctx, e =>
    match e with
    | .const c =>
      match axm c with
      | .ok k => .ok (.const k)
      | .error te => .err te
    | .var v =>
      match lookupCtx ctx v.name v.idx with
      | some t => .ok t
      | none => .err ⟨ctx, e, .unboundVariable⟩
    | .lam x tA b =>
      let ctx2 := insertShifted x tA ctx
      tbind (type_with n ctx2 b) fun tB =>
        let p : Expr := .pi x tA tB
        tbind (type_with n ctx p) fun _ => .ok p
    | .pi x tA tB =>
      tbind (type_with n ctx tA) fun tA0 =>
        match normN n tA0 with
        | .const kA =>
          let ctx2 := insertShifted x tA ctx
          tbind (type_with n ctx2 tB) fun tB0 =>
            match normN n tB0 with
            | .const kB =>
              match rule kA kB with
              | none => .err ⟨ctx, e, .noDependentTypes tA (.const kB)⟩
              | some k => .ok (.const k)
            | tBn => .err ⟨ctx2, e, .invalidOutputType tBn⟩
        | _ => .err ⟨ctx, e, .invalidInputType tA⟩
    | .app f a =>
      tbind (type_with n ctx f) fun tf0 =>
        match normN n tf0 with
        | .pi x tA tB =>
          tbind (type_with n ctx a) fun tA2 =>
            match prop_equal n tA tA2 with
            | some true => .ok (shift (-1) ⟨x, 0⟩ (subst ⟨x, 0⟩ (shift 1 ⟨x, 0⟩ a) tB))
            | some false => .err ⟨ctx, e, .typeMismatch f (normN n tA) a (normN n tA2)⟩
            | none => .panicked
        | tf => .err ⟨ctx, e, .notAFunction f tf⟩
    | .letE x mt r b =>
      tbind (type_with n ctx r) fun tR =>
        tbind (type_with n ctx tR) fun ttR0 =>
          match normN n ttR0 with
          | .const kR =>
            let ctx2 := (x, tR) :: ctx
            tbind (type_with n ctx2 b) fun tB =>
              tbind (type_with n ctx tB) fun ttB0 =>
                match normN n ttB0 with
                | .const kB =>
                  match rule kR kB with
                  | none => .err ⟨ctx, e, .noDependentLet tR tB⟩
                  | some _ =>
                    match mt with
                    | none => .ok tB
                    | some t =>
                      match prop_equal n (normN n tR) (normN n t) with
                      | some true => .ok tB
                      | some false => .err ⟨ctx, e, .annotMismatch r (normN n t) (normN n tR)⟩
                      | none => .panicked
                | _ => .err ⟨ctx, e, .invalidOutputType tB⟩
          | _ => .err ⟨ctx, e, .invalidInputType tR⟩
    | .annot x t =>
      tbind (type_with n ctx t) fun _ =>
        tbind (type_with n ctx x) fun t2 =>
          match prop_equal n t t2 with
          | some true => .ok t
          | some false => .err ⟨ctx, e, .annotMismatch x (normN n t) (normN n t2)⟩
          | none => .panicked
    | .boolLit _ => .ok (.builtin .bool)
    | .binOp .boolAnd l r => op2_type (type_with n) (normN n) ctx e .bool .cantAnd l r
    | .binOp .boolOr l r => op2_type (type_with n) (normN n) ctx e .bool .cantOr l r
    | .binOp .boolEQ l r => op2_type (type_with n) (normN n) ctx e .bool .cantEQ l r
    | .binOp .boolNE l r => op2_type (type_with n) (normN n) ctx e .bool .cantNE l r
    | .binOp .naturalPlus l r => op2_type (type_with n) (normN n) ctx e .natural .cantAdd l r
    | .binOp .naturalTimes l r =>
      op2_type (type_with n) (normN n) ctx e .natural .cantMultiply l r
    | .binOp .textAppend l r => op2_type (type_with n) (normN n) ctx e .text .cantTextAppend l r
    | .boolIf x y z =>
      tbind (type_with n ctx x) fun tx0 =>
        match normN n tx0 with
        | .builtin .bool =>
          tbind (type_with n ctx y) fun ty0 =>
            let ty := normN n ty0
            tbind (type_with n ctx ty) fun tty0 =>
              match normN n tty0 with
              | .const .type =>
                tbind (type_with n ctx z) fun tz0 =>
                  let tz := normN n tz0
                  tbind (type_with n ctx tz) fun ttz0 =>
                    match normN n ttz0 with
                    | .const .type =>
                      match prop_equal n ty tz with
                      | some true => .ok ty
                      | some false => .err ⟨ctx, e, .ifBranchMismatch y z ty tz⟩
                      | none => .panicked
                    | ttz => .err ⟨ctx, e, .ifBranchMustBeTerm false z tz ttz⟩
              | tty => .err ⟨ctx, e, .ifBranchMustBeTerm true y ty tty⟩
        | tx => .err ⟨ctx, e, .invalidPredicate x tx⟩
    | .naturalLit _ => .ok (.builtin .natural)
    | .integerLit _ => .ok (.builtin .integer)
    | .doubleLit => .ok (.builtin .double)
    | .textLit _ => .ok (.builtin .text)
    | .listLit mt xs =>
      match mt, xs with
      | some t, _ =>
        listLitTail (type_with n) (normN n) (prop_equal n) ctx e t (enumFrom 0 xs)
      | none, x :: rest =>
        tbind (type_with n ctx x) fun t =>
          listLitTail (type_with n) (normN n) (prop_equal n) ctx e t (enumFrom 1 rest)
      | none, [] => .panicked
    | .optionalLit mt xs =>
      match mt, xs with
      | some t, _ =>
        optionalLitTail (type_with n) (normN n) (prop_equal n) ctx e t xs.length xs
      | none, x :: rest =>
        tbind (type_with n ctx x) fun t =>
          optionalLitTail (type_with n) (normN n) (prop_equal n) ctx e t (rest.length + 1) rest
      | none, [] => .panicked
    | .record kts =>
      kts.foldl
        (fun acc kt =>
          match acc with
          | .ok cur =>
            match type_with n ctx kt.2 with
            | .ok t0 =>
              match normN n t0 with
              | .const .type => .ok cur
              | _ => .err ⟨ctx, e, .invalidFieldType kt.1 kt.2⟩
            | r => r
          | bad => bad)
        (.ok (.const .type))
    | .recordLit kvs => recordLitCheck (type_with n) (normN n) ctx e kvs
    | .field r x =>
      tbind (type_with n ctx r) fun tr0 =>
        match normN n tr0 with
        | .record kts =>
          match assocGet kts x with
          | some t => .ok t
          | none => .err ⟨ctx, e, .missingField x (.record kts)⟩
        | tr => .err ⟨ctx, e, .notARecord x r tr⟩
    | .builtin .naturalFold =>
      .ok (.pi "_" (.builtin .natural)
        (.pi "natural" (.const .type)
          (.pi "succ" (.pi "_" (vr "natural") (vr "natural"))
            (.pi "zero" (vr "natural") (vr "natural")))))
    | .builtin .naturalBuild =>
      .ok (.pi "_"
        (.pi "natural" (.const .type)
          (.pi "succ" (.pi "_" (vr "natural") (vr "natural"))
            (.pi "zero" (vr "natural") (vr "natural"))))
        (.builtin .natural))
    | .builtin .naturalIsZero => .ok (.pi "_" (.builtin .natural) (.builtin .bool))
    | .builtin .naturalEven => .ok (.pi "_" (.builtin .natural) (.builtin .bool))
    | .builtin .naturalOdd => .ok (.pi "_" (.builtin .natural) (.builtin .bool))
    | .builtin .listBuild =>
      .ok (.pi "a" (.const .type)
        (.pi "_"
          (.pi "list" (.const .type)
            (.pi "cons" (.pi "_" (vr "a") (.pi "_" (vr "list") (vr "list")))
              (.pi "nil" (vr "list") (vr "list"))))
          (.app (.builtin .list) (vr "a"))))
    | .builtin .listFold =>
      .ok (.pi "a" (.const .type)
        (.pi "_" (.app (.builtin .list) (vr "a"))
          (.pi "list" (.const .type)
            (.pi "cons" (.pi "_" (vr "a") (.pi "_" (vr "list") (vr "list")))
              (.pi "nil" (vr "list") (vr "list"))))))
    | .builtin .listLength =>
      .ok (.pi "a" (.const .type) (.pi "_" (.app (.builtin .list) (vr "a")) (.builtin .natural)))
    | .builtin .listHead =>
      .ok (.pi "a" (.const .type)
        (.pi "_" (.app (.builtin .list) (vr "a")) (.app (.builtin .optional) (vr "a"))))
    | .builtin .listLast =>
      .ok (.pi "a" (.const .type)
        (.pi "_" (.app (.builtin .list) (vr "a")) (.app (.builtin .optional) (vr "a"))))
    | .builtin .listIndexed =>
      .ok (.pi "a" (.const .type)
        (.pi "_" (.app (.builtin .list) (vr "a"))
          (.app (.builtin .list)
            (.record [("index", .builtin .natural), ("value", vr "a")]))))
    | .builtin .listReverse =>
      .ok (.pi "a" (.const .type)
        (.pi "_" (.app (.builtin .list) (vr "a")) (.app (.builtin .list) (vr "a"))))
    | .builtin .optionalFold =>
      .ok (.pi "a" (.const .type)
        (.pi "_" (.app (.builtin .optional) (vr "a"))
          (.pi "optional" (.const .type)
            (.pi "just" (.pi "_" (vr "a") (vr "optional"))
              (.pi "nothing" (vr "optional") (vr "optional"))))))
    | .builtin .list => .ok (.pi "_" (.const .type) (.const .type))
    | .builtin .optional => .ok (.pi "_" (.const .type) (.const .type))
    | .builtin .bool => .ok (.const .type)
    | .builtin .natural => .ok (.const .type)
    | .builtin .integer => .ok (.const .type)
    | .builtin .double => .ok (.const .type)
    | .builtin .text => .ok (.const .type)
    | .union _ => .panicked
    | .unionLit _ _ _ => .panicked
    | .combine _ _ => .panicked
    | .merge _ _ _ => .panicked
    | .note _ => .panicked

/-- Source: `pub fn type_of` in typecheck.rs: `type_with` with the empty
context. -/
def type_of (fuel : Nat) (e : Expr) : TCResult := type_with fuel [] e

mutual
/-- The node kinds handled by `prop_equal`'s structural comparison: `Const`,
`Var`, `Pi`, `App`, `Builtin`, `Record` and `Union`; every other node kind
falls into the comparison's catch-all case. -/
def goodNF : Expr → Bool
  | .const _ => true
  | .var _ => true
  | .pi _ t b => goodNF t && goodNF b
  | .app f a => goodNF f && goodNF a
  | .builtin _ => true
  | .record kts => goodNFList kts
  | .union kts => goodNFList kts
  | _ => false

/-- `goodNF` over the values of a label map. -/
def goodNFList : List (String × Expr) → Bool
  | [] => true
  | (_, t) :: rest => goodNF t && goodNFList rest
end

/-- The variables of a renaming stack whose frames pair a name with itself
match themselves: the walk of `match_vars` decrements both counters in
lockstep, so it neither underflows nor distinguishes the two sides. -/
theorem match_vars_self (ctx : List (String × String))
    (hctx : ∀ p ∈ ctx, p.1 = p.2) (v : V) : match_vars v v ctx = some true := by
  induction ctx generalizing v with
  | nil => simp [match_vars]
  | cons hd tl ih =>
    obtain ⟨a, b⟩ := hd
    have hab : a = b := hctx (a, b) (List.mem_cons_self _ _)
    subst hab
    have htl : ∀ p ∈ tl, p.1 = p.2 := fun p hp => hctx p (List.mem_cons_of_mem _ hp)
    by_cases hn : v.name = a
    · by_cases hi : v.idx = 0
      · simp [match_vars, hn, hi]
      · simp only [match_vars, hn, hi, and_true, and_false, false_and, and_self,
          if_false, if_true, reduceIte]
        simpa [hn, hi] using ih htl ⟨v.name, v.idx - 1⟩
    · simp only [match_vars, hn, and_false, false_and, and_self, if_false, reduceIte]
      simpa [hn] using ih htl ⟨v.name, v.idx⟩

/-- On a renaming stack of self-paired frames, the structural comparison of
an expression with itself returns exactly whether the expression is built
from the node kinds the comparison handles. -/
theorem propEqGo_goodNF (N : Nat) :
    (∀ e : Expr, sizeOf e ≤ N → ∀ ctx : List (String × String),
      (∀ p ∈ ctx, p.1 = p.2) → propEqGo ctx e e = some (goodNF e))
  ∧ (∀ l : List (String × Expr), sizeOf l ≤ N → ∀ ctx : List (String × String),
      (∀ p ∈ ctx, p.1 = p.2) → propEqGoList ctx l l = some (goodNFList l)) := by
  induction N using Nat.strong_induction_on with
  | _ N IH =>
    constructor
    · intro e he ctx hctx
      cases e with
      | const c => simp [propEqGo, goodNF]
      | var v => simp [propEqGo, goodNF, match_vars_self ctx hctx v]
      | builtin b => simp [propEqGo, goodNF]
      | pi x t b =>
        have h1 : sizeOf t < N := by have := he; simp at this; omega
        have h2 : sizeOf b < N := by have := he; simp at this; omega
        have ht := (IH (sizeOf t) h1).1 t le_rfl ctx hctx
        have hctx2 : ∀ p ∈ ctx ++ [(x, x)], p.1 = p.2 := by
          intro p hp
          rcases List.mem_append.1 hp with h | h
          · exact hctx p h
          · rw [List.mem_singleton.1 h]
        have hb := (IH (sizeOf b) h2).1 b le_rfl (ctx ++ [(x, x)]) hctx2
        simp only [propEqGo, ht]
        cases hg : goodNF t with
        | false => simp [goodNF, hg]
        | true => simp [goodNF, hg, hb]
      | app g a =>
        have h1 : sizeOf g < N := by have := he; simp at this; omega
        have h2 : sizeOf a < N := by have := he; simp at this; omega
        have hg2 := (IH (sizeOf g) h1).1 g le_rfl ctx hctx
        have ha := (IH (sizeOf a) h2).1 a le_rfl ctx hctx
        simp only [propEqGo, hg2]
        cases hg : goodNF g with
        | false => simp [goodNF, hg]
        | true => simp [goodNF, hg, ha]
      | record kts =>
        have h1 : sizeOf kts < N := by have := he; simp at this; omega
        have hl := (IH (sizeOf kts) h1).2 kts le_rfl ctx hctx
        simp [propEqGo, goodNF, hl]
      | union kts =>
        have h1 : sizeOf kts < N := by have := he; simp at this; omega
        have hl := (IH (sizeOf kts) h1).2 kts le_rfl ctx hctx
        simp [propEqGo, goodNF, hl]
      | lam x t b => rfl
      | letE x mt r b => rfl
      | annot x t => rfl
      | boolLit b => rfl
      | naturalLit n => rfl
      | integerLit n => rfl
      | doubleLit => rfl
      | textLit s => rfl
      | boolIf p y z => rfl
      | binOp op l r => rfl
      | listLit t xs => rfl
      | optionalLit t xs => rfl
      | recordLit kvs => rfl
      | unionLit k v kts => rfl
      | combine l r => rfl
      | merge h u t => rfl
      | field r x => rfl
      | note e => rfl
    · intro l hl ctx hctx
      cases l with
      | nil => rfl
      | cons hd tl =>
        obtain ⟨k, t⟩ := hd
        have h1 : sizeOf t < N := by have := hl; simp at this; omega
        have h2 : sizeOf tl < N := by have := hl; simp at this; omega
        have ht := (IH (sizeOf t) h1).1 t le_rfl ctx hctx
        have htl := (IH (sizeOf tl) h2).2 tl le_rfl ctx hctx
        simp only [propEqGoList, ne_eq, not_true_eq_false, if_false, reduceIte, ht]
        cases hg : goodNF t with
        | false => simp [goodNFList, hg]
        | true => simp [goodNFList, hg, htl]

/-- Claim C10: `prop_equal` is reflexive exactly on expressions whose normal
form is built entirely from `Const`, `Var`, `Pi`, `App`, `Builtin`, `Record`
and `Union` nodes (`goodNF`); on any expression whose normal form contains
another node kind, the structural comparison's catch-all case makes
`prop_equal(e, e)` return `false`. -/
theorem C10_prop_equal_refl (fuel : Nat) (e : Expr) :
    prop_equal fuel e e = some (goodNF (normN fuel e)) := by
  have h := (propEqGo_goodNF (sizeOf (normN fuel e))).1 (normN fuel e) le_rfl [] (by simp)
  simpa [prop_equal] using h

/-- Claim C3 (amended): in `prop_equal`, one renaming frame is pushed per
simultaneous `Pi` — appended at the back of the stack, so that variable
equality is decided by walking the stack from the first-pushed (outermost)
frame toward the innermost, not outward as claimed: each frame `(xL2, xR2)`
decrements `nL` if `xL = xL2` and `nR` if `xR = xR2`, and the variables are
equal iff both counters reach 0 under the same frame or, once the stack is
exhausted, names and indices are identical.  The walk is total only when no
decrement is applied to a counter that is already 0 — in particular whenever
both indices are at least the stack depth; otherwise the `usize` subtraction
underflows and the code panics in a checked build, which `prop_equal` can
reach when comparing alpha-equivalent types with shadowed `Pi` binders. -/
theorem C3_match_vars_walk :
    (∀ (ctx : List (String × String)) (vl vr : V),
      propEqGo ctx (.var vl) (.var vr) = match_vars vl vr ctx)
  ∧ (∀ (ctx : List (String × String)) (xL xR : String) (tL bL tR bR : Expr),
      propEqGo ctx tL tR = some true →
      propEqGo ctx (.pi xL tL bL) (.pi xR tR bR) = propEqGo (ctx ++ [(xL, xR)]) bL bR)
  ∧ (∀ vl vr : V, match_vars vl vr [] = some (decide (vl.name = vr.name ∧ vl.idx = vr.idx)))
  ∧ (∀ (vl vr : V) (xL2 xR2 : String) (xs : List (String × String)),
      vl.idx = 0 → vr.idx = 0 → vl.name = xL2 → vr.name = xR2 →
      match_vars vl vr ((xL2, xR2) :: xs) = some true)
  ∧ (∀ (vl vr : V) (xL2 xR2 : String) (xs : List (String × String)),
      (vl.name = xL2 → 0 < vl.idx) → (vr.name = xR2 → 0 < vr.idx) →
      match_vars vl vr ((xL2, xR2) :: xs)
        = match_vars ⟨vl.name, if vl.name = xL2 then vl.idx - 1 else vl.idx⟩
            ⟨vr.name, if vr.name = xR2 then vr.idx - 1 else vr.idx⟩ xs)
  ∧ (∀ (vl vr : V) (ctx : List (String × String)),
      ctx.length ≤ vl.idx → ctx.length ≤ vr.idx →
      ∃ b, match_vars vl vr ctx = some b) := by
  refine ⟨fun ctx vl vr => rfl, ?_, fun vl vr => rfl, ?_, ?_, ?_⟩
  · intro ctx xL xR tL bL tR bR h
    simp only [propEqGo, h]
  · intro vl vr xL2 xR2 xs h1 h2 h3 h4
    simp [match_vars, h1, h2, h3, h4]
  · intro vl vr xL2 xR2 xs hL hR
    have g2 : ¬(vl.name = xL2 ∧ vl.idx = 0) := by
      rintro ⟨e1, e2⟩
      have := hL e1
      omega
    have g3 : ¬(vr.name = xR2 ∧ vr.idx = 0) := by
      rintro ⟨e1, e2⟩
      have := hR e1
      omega
    have g1 : ¬(vl.idx = 0 ∧ vr.idx = 0 ∧ vl.name = xL2 ∧ vr.name = xR2) := by
      rintro ⟨e1, _, e3, _⟩
      have := hL e3
      omega
    rw [match_vars, if_neg g1, if_neg g2, if_neg g3]
  · intro vl vr ctx
    induction ctx generalizing vl vr with
    | nil => exact fun _ _ => ⟨_, rfl⟩
    | cons hd tl ih =>
      obtain ⟨a, b⟩ := hd
      intro hL hR
      simp only [List.length_cons] at hL hR
      by_cases hc : vl.idx = 0 ∧ vr.idx = 0 ∧ vl.name = a ∧ vr.name = b
      · exact ⟨true, by simp [match_vars, hc]⟩
      · have g2 : ¬(vl.name = a ∧ vl.idx = 0) := by
          rintro ⟨_, e2⟩
          omega
        have g3 : ¬(vr.name = b ∧ vr.idx = 0) := by
          rintro ⟨_, e2⟩
          omega
        rw [match_vars, if_neg hc, if_neg g2, if_neg g3]
        apply ih
        · by_cases h : vl.name = a <;> simp [h] <;> omega
        · by_cases h : vr.name = b <;> simp [h] <;> omega

/-- Claim C3, counterexample: the alpha-equivalent types of
`λ(x:Type) → λ(x:x) → x` and `λ(x:Type) → λ(y:x) → y`, namely
`∀(x:Type) → ∀(x:x@0) → x@1` and `∀(x:Type) → ∀(y:x@0) → x@0`.  Walking the
stack from the innermost frame `("x","y")` toward the outermost — as the
claim describes — decides `true` (third conjunct), but the code consumes the
first-pushed, outermost frame `("x","x")` first (second conjunct, the
stack in the code's order), where the right counter is already 0 and the
`usize` decrement underflows, so `prop_equal` panics (first conjunct):
the claimed walking direction and the claimed totality both fail. -/
theorem C3_stack_order_cex :
    (prop_equal 9
        (.pi "x" (.const .type) (.pi "x" (.var ⟨"x", 0⟩) (.var ⟨"x", 1⟩)))
        (.pi "x" (.const .type) (.pi "y" (.var ⟨"x", 0⟩) (.var ⟨"x", 0⟩)))
      = none)
  ∧ (match_vars ⟨"x", 1⟩ ⟨"x", 0⟩ [("x", "x"), ("x", "y")] = none)
  ∧ (match_vars ⟨"x", 1⟩ ⟨"x", 0⟩ [("x", "y"), ("x", "x")] = some true) :=
  ⟨rfl, rfl, rfl⟩

/-- Claim C3, witness: the frame appended by a simultaneous `Pi`, a
decrementing step of the walk on a frame with positive matching counter, and
the amended totality bound at a concrete stack. -/
theorem C3_match_vars_walk_w :
    (propEqGo [] (.const .type) (.const .type) = some true)
  ∧ (propEqGo [] (.pi "x" (.const .type) (.var ⟨"x", 0⟩))
        (.pi "y" (.const .type) (.var ⟨"y", 0⟩))
      = propEqGo [("x", "y")] (.var ⟨"x", 0⟩) (.var ⟨"y", 0⟩))
  ∧ (match_vars ⟨"x", 2⟩ ⟨"z", 0⟩ [("x", "y")] = match_vars ⟨"x", 1⟩ ⟨"z", 0⟩ [])
  ∧ (List.length [("x", "x")] ≤ 1
      ∧ ∃ b, match_vars ⟨"x", 1⟩ ⟨"x", 1⟩ [("x", "x")] = some b) :=
  ⟨rfl,
    C3_match_vars_walk.2.1 [] "x" "y" (.const .type) (.var ⟨"x", 0⟩) (.const .type)
      (.var ⟨"y", 0⟩) rfl,
    C3_match_vars_walk.2.2.2.2.1 ⟨"x", 2⟩ ⟨"z", 0⟩ "x" "y" [] (by decide) (by decide),
    by decide,
    C3_match_vars_walk.2.2.2.2.2 ⟨"x", 1⟩ ⟨"x", 1⟩ [("x", "x")] (by decide) (by decide)⟩

/-- Claim C5: the `Union` match arm of `type_with` is commented out in the
source, so a `Union` expression reaches the
`panic!("Unimplemented typecheck case")` fallthrough instead of checking its
alternatives and returning `Const Type`. -/
theorem C5_union_unimplemented_panic :
    ∀ (n : Nat) (ctx : Ctx) (kts : List (String × Expr)),
      type_with (n + 1) ctx (.union kts) = .panicked :=
  fun _ _ _ => rfl

/-- Claim C7: in the `ListLit` and `OptionalLit` branches the unchecked
first-element extraction (`iter.next().unwrap()`, modelled by the `panicked`
branch) is reached exactly when the annotation is absent and the sequence is
empty; with an annotation, or with a non-empty sequence, the branch proceeds
to the shared tail of the rule (type-of-annotation check, length check for
optionals, element checks). -/
theorem C7_collection_extraction (n : Nat) (ctx : Ctx) :
    (∀ (t : Expr) (xs : List Expr),
      type_with (n + 1) ctx (.listLit (some t) xs)
        = listLitTail (type_with n) (normN n) (prop_equal n) ctx (.listLit (some t) xs) t
            (enumFrom 0 xs))
  ∧ (∀ (x : Expr) (rest : List Expr),
      type_with (n + 1) ctx (.listLit none (x :: rest))
        = tbind (type_with n ctx x) fun t =>
            listLitTail (type_with n) (normN n) (prop_equal n) ctx (.listLit none (x :: rest)) t
              (enumFrom 1 rest))
  ∧ (type_with (n + 1) ctx (.listLit none []) = .panicked)
  ∧ (∀ (t : Expr) (xs : List Expr),
      type_with (n + 1) ctx (.optionalLit (some t) xs)
        = optionalLitTail (type_with n) (normN n) (prop_equal n) ctx (.optionalLit (some t) xs) t
            xs.length xs)
  ∧ (∀ (x : Expr) (rest : List Expr),
      type_with (n + 1) ctx (.optionalLit none (x :: rest))
        = tbind (type_with n ctx x) fun t =>
            optionalLitTail (type_with n) (normN n) (prop_equal n) ctx
              (.optionalLit none (x :: rest)) t (rest.length + 1) rest)
  ∧ (type_with (n + 1) ctx (.optionalLit none []) = .panicked) :=
  ⟨fun _ _ => rfl, fun _ _ => rfl, rfl, fun _ _ => rfl, fun _ _ => rfl, rfl⟩

/-- Claim C9 (amended): `type_of` is exactly `type_with` under the empty
context; a bare variable reference, which never resolves there, fails with
`UnboundVariable`.  (An unresolved variable buried in a larger expression
need not surface as `UnboundVariable`: an earlier error can win.) -/
theorem C9_type_of_empty :
    (∀ (fuel : Nat) (e : Expr), type_of fuel e = type_with fuel [] e)
  ∧ (∀ (x : String) (k n : Nat),
      type_with (n + 1) [] (.var ⟨x, k⟩) = .err ⟨[], .var ⟨x, k⟩, .unboundVariable⟩) :=
  ⟨fun _ _ => rfl, fun _ _ _ => rfl⟩

/-- Claim C9, counterexample: `App(Const Kind, Var("x", 0))` contains a free
variable that does not resolve (checking the variable alone yields
`UnboundVariable`), yet `type_of` fails with kind `Untyped`, because the
function part is judged first. -/
theorem C9_unbound_kind_cex :
    (type_of 2 (.app (.const .kind) (.var ⟨"x", 0⟩)) = .err ⟨[], .const .kind, .untyped⟩)
  ∧ (type_of 1 (.var ⟨"x", 0⟩) = .err ⟨[], .var ⟨"x", 0⟩, .unboundVariable⟩)
  ∧ TypeMessage.untyped ≠ TypeMessage.unboundVariable :=
  ⟨rfl, rfl, fun h => TypeMessage.noConfusion h⟩

/-- Claim C1: for an application `App(f, a)`, when the inferred type of `f`
normalizes to `Pi(x, tA, tB)` and `prop_equal` accepts `tA` against the
inferred type of `a`, the result is
`shift(-1, (x,0), subst((x,0), shift(1, (x,0), a), tB))`; when the normalized
type of `f` is not a `Pi` the judgment fails with `NotAFunction`; when
`prop_equal` rejects, it fails with `TypeMismatch`. -/
theorem C1_app_typing (n : Nat) (ctx : Ctx) (f a tf0 : Expr) (x : String) (tA tB : Expr)
    (hf : type_with n ctx f = .ok tf0) :
    ((normN n tf0 = .pi x tA tB →
      ∀ tA2 : Expr, type_with n ctx a = .ok tA2 →
        (prop_equal n tA tA2 = some true →
          type_with (n + 1) ctx (.app f a)
            = .ok (shift (-1) ⟨x, 0⟩ (subst ⟨x, 0⟩ (shift 1 ⟨x, 0⟩ a) tB)))
        ∧ (prop_equal n tA tA2 = some false →
          type_with (n + 1) ctx (.app f a)
            = .err ⟨ctx, .app f a, .typeMismatch f (normN n tA) a (normN n tA2)⟩))
    ∧ ((∀ (y : String) (u w : Expr), normN n tf0 ≠ .pi y u w) →
      type_with (n + 1) ctx (.app f a)
        = .err ⟨ctx, .app f a, .notAFunction f (normN n tf0)⟩)) := by
  constructor
  · intro hpi tA2 ha
    constructor
    · intro hpe
      simp only [type_with, hf, tbind, hpi, ha, hpe]
    · intro hpe
      simp only [type_with, hf, tbind, hpi, ha, hpe]
  · intro hnp
    simp only [type_with, hf, tbind]

/-- Claim C1, witness: `NaturalIsZero 3` types as `Bool` through the
beta-contraction of the `Pi` codomain. -/
theorem C1_app_typing_w :
    (type_with 1 [] (.builtin .naturalIsZero)
      = .ok (.pi "_" (.builtin .natural) (.builtin .bool)))
  ∧ (normN 1 (Expr.pi "_" (.builtin .natural) (.builtin .bool))
      = .pi "_" (.builtin .natural) (.builtin .bool))
  ∧ (type_with 1 [] (.naturalLit 3) = .ok (.builtin .natural))
  ∧ (prop_equal 1 (.builtin .natural) (.builtin .natural) = some true)
  ∧ (type_with 2 [] (.app (.builtin .naturalIsZero) (.naturalLit 3)) = .ok (.builtin .bool)) :=
  ⟨rfl, rfl, rfl, rfl,
    ((C1_app_typing 1 [] (.builtin .naturalIsZero) (.naturalLit 3)
          (.pi "_" (.builtin .natural) (.builtin .bool)) "_" (.builtin .natural)
          (.builtin .bool) rfl).1 rfl (.builtin .natural) rfl).1 rfl⟩

/-- Claim C2: the PTS tables: `axiom(Type) = Kind`; `axiom(Kind)` fails with
`Untyped` (so `Const Kind` type-checks to that error in any context); `rule`
accepts `(Type, Type)`, `(Kind, Type)` and `(Kind, Kind)` and rejects
`(Type, Kind)`; consequently a `Pi` whose domain sort is `Type` and codomain
sort is `Kind` fails with `NoDependentTypes`, while an accepted sort pair
yields the corresponding `Const`. -/
theorem C2_pts_tables :
    (axm .type = Except.ok DhallConst.kind)
  ∧ (axm .kind = Except.error ⟨[], .const .kind, .untyped⟩)
  ∧ (∀ (n : Nat) (ctx : Ctx),
      type_with (n + 1) ctx (.const .kind) = .err ⟨[], .const .kind, .untyped⟩)
  ∧ (rule .type .type = some .type)
  ∧ (rule .kind .type = some .type)
  ∧ (rule .kind .kind = some .kind)
  ∧ (rule .type .kind = none)
  ∧ (∀ (n : Nat) (ctx : Ctx) (x : String) (tA tB tA0 tB0 : Expr) (kA kB : DhallConst),
      type_with n ctx tA = .ok tA0 → normN n tA0 = .const kA →
      type_with n (insertShifted x tA ctx) tB = .ok tB0 → normN n tB0 = .const kB →
      ((kA = .type → kB = .kind →
        type_with (n + 1) ctx (.pi x tA tB)
          = .err ⟨ctx, .pi x tA tB, .noDependentTypes tA (.const kB)⟩)
      ∧ (∀ k, rule kA kB = some k →
        type_with (n + 1) ctx (.pi x tA tB) = .ok (.const k)))) := by
  refine ⟨rfl, rfl, fun _ _ => rfl, rfl, rfl, rfl, rfl, ?_⟩
  intro n ctx x tA tB tA0 tB0 kA kB htA hnA htB hnB
  constructor
  · intro hkA hkB
    subst hkA
    subst hkB
    simp only [type_with, htA, tbind, hnA, htB, hnB, rule]
  · intro k hk
    simp only [type_with, htA, tbind, hnA, htB, hnB, hk]

/-- Claim C2, witness: `∀(x: Bool) → Natural` lives at `Type`;
`∀(x: Bool) → Type` is rejected with `NoDependentTypes`. -/
theorem C2_pts_tables_w :
    (type_with 1 [] (.builtin .bool) = .ok (.const .type))
  ∧ (type_with 1 (insertShifted "x" (.builtin .bool) []) (.builtin .natural)
      = .ok (.const .type))
  ∧ (type_with 2 [] (.pi "x" (.builtin .bool) (.builtin .natural)) = .ok (.const .type))
  ∧ (type_with 1 (insertShifted "x" (.builtin .bool) []) (.const .type) = .ok (.const .kind))
  ∧ (type_with 2 [] (.pi "x" (.builtin .bool) (.const .type))
      = .err ⟨[], .pi "x" (.builtin .bool) (.const .type),
          .noDependentTypes (.builtin .bool) (.const .kind)⟩) :=
  ⟨rfl, rfl,
    (C2_pts_tables.2.2.2.2.2.2.2 1 [] "x" (.builtin .bool) (.builtin .natural) (.const .type)
        (.const .type) .type .type rfl rfl rfl rfl).2 .type rfl,
    rfl,
    (C2_pts_tables.2.2.2.2.2.2.2 1 [] "x" (.builtin .bool) (.const .type) (.const .type)
        (.const .kind) .type .kind rfl rfl rfl rfl).1 rfl rfl⟩

/-- Claim C4 (amended): for `Let(x, mt, r, b)`: infer `tR = typeof(r)` and
require `typeof(tR)` to normalize to a `Const kR`; infer `tB = typeof(b)` in
the context extended with `{x: tR}` and require `typeof(tB)` — judged in the
original (unextended) context — to normalize to a `Const kB`; fail with
`NoDependentLet` when `rule(kR, kB)` is rejected; with `mt` present, fail
with `AnnotMismatch` unless `prop_equal(normalize(mt), normalize(tR))`;
otherwise return `tB`. -/
theorem C4_let_typing (n : Nat) (ctx : Ctx) (x : String) (mt : Option Expr)
    (r b tR ttR0 tB ttB0 : Expr) (kR kB : DhallConst)
    (hr : type_with n ctx r = .ok tR)
    (htr : type_with n ctx tR = .ok ttR0) (hnr : normN n ttR0 = .const kR)
    (hb : type_with n ((x, tR) :: ctx) b = .ok tB)
    (htb : type_with n ctx tB = .ok ttB0) (hnb : normN n ttB0 = .const kB) :
    (rule kR kB = none →
      type_with (n + 1) ctx (.letE x mt r b)
        = .err ⟨ctx, .letE x mt r b, .noDependentLet tR tB⟩)
  ∧ (∀ k, rule kR kB = some k → mt = none →
      type_with (n + 1) ctx (.letE x mt r b) = .ok tB)
  ∧ (∀ k t, rule kR kB = some k → mt = some t →
      ((prop_equal n (normN n tR) (normN n t) = some true →
        type_with (n + 1) ctx (.letE x mt r b) = .ok tB)
      ∧ (prop_equal n (normN n tR) (normN n t) = some false →
        type_with (n + 1) ctx (.letE x mt r b)
          = .err ⟨ctx, .letE x mt r b, .annotMismatch r (normN n t) (normN n tR)⟩))) := by
  refine ⟨?_, ?_, ?_⟩
  · intro hrule
    simp only [type_with, hr, tbind, htr, hnr, hb, htb, hnb, hrule]
  · intro k hrule hmt
    subst hmt
    simp only [type_with, hr, tbind, htr, hnr, hb, htb, hnb, hrule]
  · intro k t hrule hmt
    subst hmt
    constructor
    · intro hpe
      simp only [type_with, hr, tbind, htr, hnr, hb, htb, hnb, hrule, hpe]
    · intro hpe
      simp only [type_with, hr, tbind, htr, hnr, hb, htb, hnb, hrule, hpe]

/-- Claim C4, witness: `let x = True in False` types as `Bool`;
`let x = True in Bool` is rejected with `NoDependentLet` because
`rule(Type, Kind)` is rejected. -/
theorem C4_let_typing_w :
    (type_with 1 [] (.boolLit true) = .ok (.builtin .bool))
  ∧ (type_with 1 [] (.builtin .bool) = .ok (.const .type))
  ∧ (type_with 1 [("x", .builtin .bool)] (.boolLit false) = .ok (.builtin .bool))
  ∧ (type_with 2 [] (.letE "x" none (.boolLit true) (.boolLit false)) = .ok (.builtin .bool))
  ∧ (type_with 1 [("x", .builtin .bool)] (.builtin .bool) = .ok (.const .type))
  ∧ (type_with 1 [] (.const .type) = .ok (.const .kind))
  ∧ (type_with 2 [] (.letE "x" none (.boolLit true) (.builtin .bool))
      = .err ⟨[], .letE "x" none (.boolLit true) (.builtin .bool),
          .noDependentLet (.builtin .bool) (.const .type)⟩) :=
  ⟨rfl, rfl, rfl,
    (C4_let_typing 1 [] "x" none (.boolLit true) (.boolLit false) (.builtin .bool)
        (.const .type) (.builtin .bool) (.const .type) .type .type rfl rfl rfl rfl rfl
        rfl).2.1 .type rfl rfl,
    rfl, rfl,
    (C4_let_typing 1 [] "x" none (.boolLit true) (.builtin .bool) (.builtin .bool)
        (.const .type) (.const .type) (.const .kind) .type .kind rfl rfl rfl rfl rfl
        rfl).1 rfl⟩

/-- Claim C4, counterexample to "judged in that extended context": in
`let x = Bool in ([] : List x)`, the inferred body type `List x` mentions
`x`; its type is `Const Type` in the extended context (so the claim predicts
success with type `List x`), but the code judges it in the original context,
where `x` is unbound, so the whole `let` fails with `UnboundVariable`. -/
theorem C4_let_extended_ctx_cex :
    (type_with 8 [] (.builtin .bool) = .ok (.const .type))
  ∧ (type_with 8 [] (.const .type) = .ok (.const .kind))
  ∧ (type_with 8 [("x", .const .type)] (.listLit (some (.var ⟨"x", 0⟩)) [])
      = .ok (.app (.builtin .list) (.var ⟨"x", 0⟩)))
  ∧ (type_with 8 [("x", .const .type)] (.app (.builtin .list) (.var ⟨"x", 0⟩))
      = .ok (.const .type))
  ∧ (rule .kind .type = some .type)
  ∧ (type_with 9 [] (.letE "x" none (.builtin .bool) (.listLit (some (.var ⟨"x", 0⟩)) []))
      = .err ⟨[], .var ⟨"x", 0⟩, .unboundVariable⟩)
  ∧ type_with 9 [] (.letE "x" none (.builtin .bool) (.listLit (some (.var ⟨"x", 0⟩)) []))
      ≠ .ok (.app (.builtin .list) (.var ⟨"x", 0⟩)) :=
  ⟨rfl, rfl, rfl, rfl, rfl, rfl, fun h =>
    TCResult.noConfusion
      ((Eq.symm (rfl :
        type_with 9 [] (.letE "x" none (.builtin .bool)
            (.listLit (some (.var ⟨"x", 0⟩)) []))
          = .err ⟨[], .var ⟨"x", 0⟩, .unboundVariable⟩)).trans h)⟩

/-- Claim C8: for `OptionalLit` with a resolved element type whose type
normalizes to `Const Type`: a sequence of length at least 2 fails with
`InvalidOptionalLiteral(n)` carrying the sequence length; with length at most
1 and every checked element's type `prop_equal` to the element type, the
result is `App(Optional, t)`. -/
theorem C8_optional_literal (n : Nat) (ctx : Ctx) (t s0 : Expr)
    (hts : type_with n ctx t = .ok s0) (hnc : normN n s0 = .const .type) :
    (∀ xs : List Expr, 2 ≤ xs.length →
      type_with (n + 1) ctx (.optionalLit (some t) xs)
        = .err ⟨ctx, .optionalLit (some t) xs, .invalidOptionalLiteral xs.length⟩)
  ∧ (type_with (n + 1) ctx (.optionalLit (some t) [])
      = .ok (.app (.builtin .optional) t))
  ∧ (∀ x tx : Expr, type_with n ctx x = .ok tx → prop_equal n t tx = some true →
      type_with (n + 1) ctx (.optionalLit (some t) [x])
        = .ok (.app (.builtin .optional) t))
  ∧ (∀ (x : Expr) (rest : List Expr), type_with n ctx x = .ok t → 2 ≤ rest.length + 1 →
      type_with (n + 1) ctx (.optionalLit none (x :: rest))
        = .err ⟨ctx, .optionalLit none (x :: rest), .invalidOptionalLiteral (rest.length + 1)⟩)
  ∧ (∀ x : Expr, type_with n ctx x = .ok t →
      type_with (n + 1) ctx (.optionalLit none [x]) = .ok (.app (.builtin .optional) t)) := by
  refine ⟨?_, ?_, ?_, ?_, ?_⟩
  · intro xs hxs
    simp only [type_with, optionalLitTail, hts, tbind, hnc, if_pos hxs]
  · simp only [type_with, optionalLitTail, hts, tbind, hnc, List.length_nil, List.foldl]
    simp
  · intro x tx hx hpe
    simp only [type_with, optionalLitTail, hts, tbind, hnc, List.length_singleton,
      List.foldl, hx, hpe]
    simp
  · intro x rest hx hlen
    simp only [type_with, optionalLitTail, hx, tbind, hts, hnc, if_pos hlen]
  · intro x hx
    simp only [type_with, optionalLitTail, hx, tbind, hts, hnc, List.length_nil,
      List.foldl]
    simp

/-- Claim C8, witness: `[True, False]` as an optional literal of `Bool` fails
with `InvalidOptionalLiteral 2`; `[True]` yields `Optional Bool`. -/
theorem C8_optional_literal_w :
    (type_with 1 [] (.builtin .bool) = .ok (.const .type))
  ∧ (normN 1 (Expr.const .type) = .const .type)
  ∧ (2 ≤ [Expr.boolLit true, Expr.boolLit false].length)
  ∧ (type_with 2 [] (.optionalLit (some (.builtin .bool)) [.boolLit true, .boolLit false])
      = .err ⟨[], .optionalLit (some (.builtin .bool)) [.boolLit true, .boolLit false],
          .invalidOptionalLiteral 2⟩)
  ∧ (type_with 1 [] (.boolLit true) = .ok (.builtin .bool))
  ∧ (prop_equal 1 (.builtin .bool) (.builtin .bool) = some true)
  ∧ (type_with 2 [] (.optionalLit (some (.builtin .bool)) [.boolLit true])
      = .ok (.app (.builtin .optional) (.builtin .bool))) :=
  ⟨rfl, rfl, by decide,
    (C8_optional_literal 1 [] (.builtin .bool) (.const .type) rfl rfl).1
      [.boolLit true, .boolLit false] (by decide),
    rfl, rfl,
    (C8_optional_literal 1 [] (.builtin .bool) (.const .type) rfl rfl).2.2.1
      (.boolLit true) (.builtin .bool) rfl rfl⟩

end DhallTC
